import Mathlib

/-!
Shallow embedding of the Exercise Tracker HTTP service (src/index.js).

The service keeps two collections, Users and Exercises, in a MongoDB store
accessed through Mongoose, and exposes route handlers that translate each
HTTP request into store calls and a JSON response.  The embedding models
the store as two Lean lists together with a fresh-identifier counter, and
models each route handler as a function from the store and the request
parameters to a response value and the updated store.

Conventions used throughout:
- object identifiers are opaque and modelled as natural numbers;
- a JavaScript NaN produced by parseInt is modelled as `none : Option Int`;
- a JavaScript Invalid Date is likewise modelled as `none : Option Int`;
- a valid timestamp is an `Int`; the date parser encodes a calendar date
  order-isomorphically, which is all the handlers ever use of it.
-/

/-- A stored User document (userSchema, src/index.js lines 28-30). -/
structure UserRec where
  uid : Nat
  username : String
deriving Repr, DecidableEq

/-- A stored Exercise document (exerciseSchema, src/index.js lines 32-37).
The duration and date fields hold cast results, a NaN duration and an
Invalid Date being modelled as `none`; Mongoose validation at save
rejects both, so a document that actually reaches the store always
carries `some` values in these fields. -/
structure ExerciseRec where
  eid : Nat
  userId : Nat
  description : String
  duration : Option Int
  date : Option Int
deriving Repr, DecidableEq

/-- The record store: the two collections plus a counter modelling the
generation of fresh object identifiers on insert. -/
structure Store where
  users : List UserRec
  exercises : List ExerciseRec
  nextId : Nat
deriving Repr, DecidableEq

/-- Truthiness of an optional string parameter, as JavaScript evaluates it
in a condition: an absent (undefined) value and the empty string are falsy,
every other string is truthy. -/
def truthy : Option String → Bool
  | none => false
  | some s => !s.isEmpty

/-- Longest run of leading decimal digits of a character list. -/
def leadingDigits : List Char → List Char
  | [] => []
  | c :: cs => if c.isDigit then c :: leadingDigits cs else []

/-- Numeric value of a list of decimal digits, most significant first. -/
def digitsVal (ds : List Char) : Nat :=
  ds.foldl (fun a c => 10 * a + (c.toNat - 48)) 0

/-- Models the JavaScript parseInt applied to a string: leading whitespace
is skipped, an optional sign is read, then the longest run of decimal
digits; trailing characters are ignored.  When that run is empty parseInt
yields NaN, modelled as `none`. -/
def parseIntJS (s : String) : Option Int :=
  let cs := s.data.dropWhile Char.isWhitespace
  let signed : Bool × List Char :=
    match cs with
    | '-' :: rest => (true, rest)
    | '+' :: rest => (false, rest)
    | _ => (false, cs)
  let ds := leadingDigits signed.2
  if ds.isEmpty then none
  else if signed.1 then some (-(digitsVal ds : Int)) else some (digitsVal ds : Int)

/-- Splits a character list at every dash, keeping empty components, the
way String.splitOn does for a one-character separator. -/
def splitOnDash : List Char → List (List Char)
  | [] => [[]]
  | c :: cs =>
    match splitOnDash cs, decide (c = '-') with
    | r, true => [] :: r
    | [], false => [[c]]
    | h :: t, false => (c :: h) :: t

/-- Models the JavaScript Date constructor restricted to ISO `YYYY-MM-DD`
date strings; every other string yields an Invalid Date, modelled as
`none`.  The timestamp is encoded order-isomorphically as
`10000 * year + 100 * month + day`, which preserves chronological order,
the only aspect of timestamps the handlers use. -/
def jsDateParse (s : String) : Option Int :=
  match splitOnDash s.data with
  | [y, m, d] =>
    if y.length == 4 && m.length == 2 && d.length == 2 &&
        y.all Char.isDigit && m.all Char.isDigit && d.all Char.isDigit then
      let mv := digitsVal m
      let dv := digitsVal d
      if 1 ≤ mv && mv ≤ 12 && 1 ≤ dv && dv ≤ 31 then
        some (10000 * (digitsVal y : Int) + 100 * mv + dv)
      else none
    else none
  | _ => none

/-- Month names used by the date rendering. -/
def monthNames : List String :=
  ["Jan", "Feb", "Mar", "Apr", "May", "Jun", "Jul", "Aug", "Sep", "Oct", "Nov", "Dec"]

/-- Models Date.prototype.toDateString: an Invalid Date renders as the
fixed string "Invalid Date"; a valid encoded date renders its month, day
and year.  The weekday component is omitted by the model, which no claim
depends on. -/
def toDateString : Option Int → String
  | none => "Invalid Date"
  | some t =>
    let n := t.toNat
    (monthNames.getD ((n / 100) % 100 - 1) "???") ++ " " ++
      toString (n % 100) ++ " " ++ toString (n / 10000)

/-- Models User.findOne with an exact username filter: the first stored
User whose username matches. -/
def findOneUser (s : Store) (username : String) : Option UserRec :=
  s.users.find? (fun u => u.username == username)

/-- Models User.findById: the stored User carrying the identifier. -/
def findUserById (s : Store) (i : Nat) : Option UserRec :=
  s.users.find? (fun u => u.uid == i)

/-- Response of the POST /api/users handler.  The 500 branch of the
handler is reachable only when a store call throws, which the store model
never does, so the response always carries a user record. -/
inductive UsersResp
  | ok (user : UserRec)
deriving Repr, DecidableEq

/-- The record carried by a POST /api/users response. -/
def UsersResp.user : UsersResp → UserRec
  | .ok u => u

/-- HTTP status of a POST /api/users response: res.json answers 200. -/
def UsersResp.status : UsersResp → Nat
  | .ok _ => 200

/-- Handler for POST /api/users (src/index.js lines 49-71): look the
username up; when a User already exists return it unchanged, otherwise
insert a fresh User and return it. -/
def postUsers (s : Store) (username : String) : UsersResp × Store :=
  match findOneUser s username with
  | some existing => (.ok existing, s)
  | none =>
    let newUser : UserRec := { uid := s.nextId, username := username }
    (.ok newUser, { s with users := s.users ++ [newUser], nextId := s.nextId + 1 })

/-- Response of the POST /api/users/:_id/exercises handler. -/
inductive ExResp
  | notFound (error : String)
  | serverError (error : String)
  | ok (uid : Nat) (username description : String) (duration : Option Int) (date : String)
deriving Repr, DecidableEq

/-- HTTP status of a POST /api/users/:_id/exercises response. -/
def ExResp.status : ExResp → Nat
  | .notFound _ => 404
  | .serverError _ => 500
  | .ok _ _ _ _ _ => 200

/-- Handler for POST /api/users/:_id/exercises (src/index.js lines
85-118).  The argument `now` is the current time, used when the date field
is absent or falsy; the duration is coerced with parseInt and the date
with the Date constructor, and the handler itself checks neither result.
The store save does check them: the Mongoose Number cast rejects a NaN
duration and the Date cast rejects an Invalid Date, so exercise.save()
at line 104 throws on either, and the catch of lines 114-117 answers 500
with nothing stored. -/
def postExercise (s : Store) (userId : Nat) (description duration : String)
    (date : Option String) (now : Int) : ExResp × Store :=
  match findUserById s userId with
  | none => (.notFound "User not found", s)
  | some user =>
    let storedDate : Option Int :=
      if truthy date then jsDateParse (date.getD "") else some now
    match parseIntJS duration, storedDate with
    | some dv, some dt =>
      let ex : ExerciseRec :=
        { eid := s.nextId, userId := userId, description := description,
          duration := some dv, date := some dt }
      (.ok user.uid user.username ex.description ex.duration (toDateString ex.date),
        { s with exercises := s.exercises ++ [ex], nextId := s.nextId + 1 })
    | _, _ => (.serverError "Server error adding exercise", s)

/-- One element of the log array of a GET /api/users/:_id/logs response. -/
structure LogEntry where
  eid : Nat
  description : String
  duration : Option Int
  date : String
deriving Repr, DecidableEq

/-- Shapes a stored Exercise document into a log element, rendering its
date with toDateString. -/
def toLogEntry (e : ExerciseRec) : LogEntry :=
  { eid := e.eid, description := e.description, duration := e.duration,
    date := toDateString e.date }

/-- Response of the GET /api/users/:_id/logs handler. -/
inductive LogResp
  | notFound (error : String)
  | serverError (error : String)
  | ok (uid : Nat) (username : String) (count : Nat) (log : List LogEntry)
deriving Repr, DecidableEq

/-- HTTP status of a GET /api/users/:_id/logs response. -/
def LogResp.status : LogResp → Nat
  | .notFound _ => 404
  | .serverError _ => 500
  | .ok _ _ _ _ => 200

/-- The log array of a GET /api/users/:_id/logs response; empty on the
error responses, which carry no log. -/
def LogResp.logList : LogResp → List LogEntry
  | .ok _ _ _ l => l
  | _ => []

/-- Builds one optional date bound of the Mongo filter from a query
parameter, as lines 136-144 of src/index.js do: an absent or empty (falsy)
parameter contributes no bound; a supplied parameter is parsed as a date,
and an unparseable one makes the query cast fail, which the catch branch
of the handler turns into a 500 response. -/
def queryBound (q : Option String) : Except Unit (Option Int) :=
  if truthy q then
    match jsDateParse (q.getD "") with
    | some t => .ok (some t)
    | none => .error ()
  else .ok none

/-- Mongo evaluation of the date range conditions against a stored date:
the conjunction of the `$gte` bound and the `$lte` bound, each vacuous
when absent.  A stored Invalid Date satisfies no range condition. -/
def matchDate (lo hi : Option Int) : Option Int → Bool
  | none => false
  | some d => (lo.all fun l => decide (l ≤ d)) && (hi.all fun h => decide (d ≤ h))

/-- The find filter built by the log handler: always an equality on
userId, plus the date range conditions when at least one of from/to was
supplied (line 136 of src/index.js tests their truthiness). -/
def logFilter (uid : Nat) (useDate : Bool) (lo hi : Option Int) (e : ExerciseRec) : Bool :=
  e.userId == uid && (if useDate then matchDate lo hi e.date else true)

/-- Sort key of the ascending-by-date sort.  Stored Invalid Dates, never
produced by real runs, sort as the epoch. -/
def dateKey (e : ExerciseRec) : Int :=
  e.date.getD 0

/-- The ascending-by-date order the log handler requests from the store. -/
def dateOrder (a b : ExerciseRec) : Prop :=
  dateKey a ≤ dateKey b

instance : DecidableRel dateOrder := fun a b => Int.decLe (dateKey a) (dateKey b)

instance : IsTotal ExerciseRec dateOrder := ⟨fun a b => le_total (dateKey a) (dateKey b)⟩

instance : IsTrans ExerciseRec dateOrder := ⟨fun _ _ _ => le_trans⟩

/-- Mongo cursor limit semantics: no limit when the option is absent, a
limit of exactly 0 also means no limit (per the MongoDB cursor.limit
contract), and a negative limit returns at most its absolute value of
documents. -/
def mongoLimit (n : Option Int) (l : List ExerciseRec) : List ExerciseRec :=
  match n with
  | none => l
  | some n => if n = 0 then l else l.take n.natAbs

/-- Handler for GET /api/users/:_id/logs (src/index.js lines 121-169):
look the user up (404 when absent), build the userId and optional date
filter, let the store filter, sort ascending by date and cap by the
parsed limit, then shape the entries and answer with the log and its
length as the count.  A supplied limit parsing to NaN is left as no limit
by the model; no claim exercises that case. -/
def getLogs (s : Store) (uid : Nat) (fromQ toQ limitQ : Option String) : LogResp :=
  match findUserById s uid with
  | none => .notFound "User not found"
  | some user =>
    match queryBound fromQ, queryBound toQ with
    | .ok lo, .ok hi =>
      let useDate := truthy fromQ || truthy toQ
      let matched := s.exercises.filter (logFilter uid useDate lo hi)
      let sorted := matched.insertionSort dateOrder
      let lim : Option Int := if truthy limitQ then parseIntJS (limitQ.getD "") else none
      let log := (mongoLimit lim sorted).map toLogEntry
      .ok user.uid user.username log.length log
    | _, _ => .serverError "Server error retrieving exercise log"

/-- Response of the two bulk delete handlers: the HTTP status and the
message field of the JSON body. -/
structure DelResp where
  status : Nat
  message : String
deriving Repr, DecidableEq

/-- Handler for GET /api/users/delete (src/index.js lines 172-182).  The
argument `storeFails` models the deleteMany call throwing; the catch
branch still answers through res.json, whose default status is 200. -/
def deleteAllUsers (s : Store) (storeFails : Bool) : DelResp × Store :=
  if storeFails then ({ status := 200, message := "Deleting all users failed!" }, s)
  else ({ status := 200, message := "All users have been deleted!" }, { s with users := [] })

/-- Handler for GET /api/exercises/delete (src/index.js lines 188-197),
with `storeFails` modelling the deleteMany call throwing. -/
def deleteAllExercises (s : Store) (storeFails : Bool) : DelResp × Store :=
  if storeFails then ({ status := 200, message := "Deleting all exercises failed!" }, s)
  else ({ status := 200, message := "All exercises have been deleted!" }, { s with exercises := [] })

/-- Options declared on a schema field. -/
structure FieldOptions where
  required : Bool
  unique : Bool
deriving Repr, DecidableEq

/-- Options of the username field of userSchema, transcribed from src/
index.js lines 28-30: the field is declared required and unique, the
latter making Mongoose declare a store-level unique index (which line 202
additionally syncs with User.syncIndexes). -/
def userSchemaUsername : FieldOptions :=
  { required := true, unique := true }

/-- Stated from the words of the spec (section 4.1), for comparison with
the schema declaration transcribed from the source: the store itself
enforces no uniqueness constraint on username. -/
def specStoreNoUsernameUnique : Prop :=
  userSchemaUsername.unique = false

/-- Concrete store used by witnesses: one registered user and no
exercises. -/
def wStore : Store :=
  { users := [{ uid := 7, username := "alice" }], exercises := [], nextId := 8 }

/-- Concrete store used by counterexamples and witnesses: one registered
user owning two exercises on consecutive days. -/
def cexStore : Store :=
  { users := [{ uid := 1, username := "alice" }],
    exercises :=
      [ { eid := 2, userId := 1, description := "run", duration := some 30, date := some 20240101 },
        { eid := 3, userId := 1, description := "swim", duration := some 20, date := some 20240102 } ],
    nextId := 4 }

/-- Unfolding of the log handler on the success path: with the user found
and both query bounds cast successfully, the response is built from the
filtered, sorted and capped entries. -/
theorem getLogs_ok (s : Store) (uid : Nat) (u : UserRec)
    (fromQ toQ limitQ : Option String) (lo hi : Option Int)
    (hu : findUserById s uid = some u)
    (hlo : queryBound fromQ = .ok lo) (hhi : queryBound toQ = .ok hi) :
    getLogs s uid fromQ toQ limitQ =
      .ok u.uid u.username
        ((mongoLimit (if truthy limitQ then parseIntJS (limitQ.getD "") else none)
          ((s.exercises.filter (logFilter uid (truthy fromQ || truthy toQ) lo hi)).insertionSort
            dateOrder)).map toLogEntry).length
        ((mongoLimit (if truthy limitQ then parseIntJS (limitQ.getD "") else none)
          ((s.exercises.filter (logFilter uid (truthy fromQ || truthy toQ) lo hi)).insertionSort
            dateOrder)).map toLogEntry) := by
  simp only [getLogs, hu, hlo, hhi]

/-- Characterisation of the date filter built by the log handler when the
date conditions are active. -/
theorem logFilter_true_iff (uid : Nat) (lo hi : Option Int) (e : ExerciseRec) :
    logFilter uid true lo hi e = true ↔
      e.userId = uid ∧
        ∃ d : Int, e.date = some d ∧ (∀ l ∈ lo, l ≤ d) ∧ (∀ h ∈ hi, d ≤ h) := by
  cases hd : e.date with
  | none => simp [logFilter, matchDate, hd]
  | some d => cases lo <;> cases hi <;> simp [logFilter, matchDate, hd, and_assoc]

/-- C2: registering the same username twice sequentially returns the same
user identifier both times, the second call changes nothing, and when a
User with that username already exists the handler returns the existing
record unchanged and creates nothing. -/
theorem postUsers_idempotent (s : Store) (u : String) :
    (postUsers (postUsers s u).2 u).2 = (postUsers s u).2 ∧
    ((postUsers (postUsers s u).2 u).1.user).uid = ((postUsers s u).1.user).uid ∧
    ∀ r : UserRec, findOneUser s u = some r → postUsers s u = (.ok r, s) := by
  cases h : findOneUser s u with
  | some r => simp [postUsers, h]
  | none =>
    have h' : s.users.find? (fun v => v.username == u) = none := h
    simp [postUsers, findOneUser, UsersResp.user, List.find?_append, h']

/-- C2 witness: on a store already holding the user alice, registering
alice returns the stored record and leaves the store unchanged. -/
theorem postUsers_idempotent_w :
    postUsers wStore "alice" = (.ok { uid := 7, username := "alice" }, wStore) :=
  (postUsers_idempotent wStore "alice").2.2 { uid := 7, username := "alice" } (by decide)

/-- C4 counterexample: the claim says the store itself enforces no
uniqueness constraint on username, yet userSchema declares the username
field with unique set, which is a store-level unique index. -/
theorem store_unique_cex : ¬ specStoreNoUsernameUnique := by
  simp [specStoreNoUsernameUnique, userSchemaUsername]

/-- C4 amended: userSchema does declare a store-level uniqueness
constraint (a unique index) on username; the handler additionally checks
before inserting, so on a sequential run with the username present the
insert path is not taken and the store is unchanged. -/
theorem store_unique_amended :
    userSchemaUsername.unique = true ∧
    ∀ (s : Store) (u : String) (r : UserRec),
      findOneUser s u = some r → (postUsers s u).2 = s := by
  refine ⟨rfl, fun s u r h => ?_⟩
  simp [postUsers, h]

/-- C4 witness: on a store already holding alice, registering alice
leaves the store unchanged. -/
theorem store_unique_amended_w : (postUsers wStore "alice").2 = wStore :=
  store_unique_amended.2 wStore "alice" { uid := 7, username := "alice" } (by decide)

/-- C5: a userId referencing no existing User makes the add exercise
handler answer 404 with a descriptive message while storing nothing, and
makes the log handler answer 404 with the same message. -/
theorem missing_user_404 (s : Store) (uid : Nat) (desc dur : String)
    (dt : Option String) (now : Int) (fromQ toQ limitQ : Option String)
    (h : findUserById s uid = none) :
    postExercise s uid desc dur dt now = (.notFound "User not found", s) ∧
    (postExercise s uid desc dur dt now).1.status = 404 ∧
    getLogs s uid fromQ toQ limitQ = .notFound "User not found" ∧
    (getLogs s uid fromQ toQ limitQ).status = 404 := by
  simp [postExercise, getLogs, h, ExResp.status, LogResp.status]

/-- C5 witness: user 9 does not exist in the witness store, and both
handlers answer 404 on it. -/
theorem missing_user_404_w :
    postExercise wStore 9 "run" "30" none 0 = (.notFound "User not found", wStore) ∧
    (postExercise wStore 9 "run" "30" none 0).1.status = 404 ∧
    getLogs wStore 9 none none none = .notFound "User not found" ∧
    (getLogs wStore 9 none none none).status = 404 :=
  missing_user_404 wStore 9 "run" "30" none 0 none none none (by decide)

/-- C8: each bulk delete handler answers status 200 whether or not the
store call fails, and a failed call yields the failure message in the
body rather than a non-200 status. -/
theorem bulk_delete_status (s : Store) (f : Bool) :
    (deleteAllUsers s f).1.status = 200 ∧
    (deleteAllExercises s f).1.status = 200 ∧
    (deleteAllUsers s true).1.message = "Deleting all users failed!" ∧
    (deleteAllExercises s true).1.message = "Deleting all exercises failed!" := by
  cases f <;> simp [deleteAllUsers, deleteAllExercises]

/-- C9: a date field supplied as the empty string is falsy, so the add
exercise handler treats it exactly like an absent date field, and when
the user exists and the duration parses the stored entry carries the
current time. -/
theorem empty_date_defaults_now (s : Store) (uid : Nat) (desc dur : String) (now : Int) :
    postExercise s uid desc dur (some "") now = postExercise s uid desc dur none now ∧
    ∀ u : UserRec, findUserById s uid = some u →
      ∀ dv : Int, parseIntJS dur = some dv →
        (postExercise s uid desc dur (some "") now).2.exercises
          = s.exercises ++
              [{ eid := s.nextId, userId := uid, description := desc,
                 duration := some dv, date := some now }] := by
  have ht : truthy (some "") = false := by decide
  have hn : truthy none = false := by decide
  constructor
  · simp [postExercise, ht, hn]
  · intro u hu dv hdv
    simp [postExercise, hu, ht, hdv]

/-- C9 witness: adding an exercise for the stored user with an empty date
field stores the current time. -/
theorem empty_date_defaults_now_w :
    (postExercise wStore 7 "run" "30" (some "") 5).2.exercises
      = wStore.exercises ++
          [{ eid := wStore.nextId, userId := 7, description := "run",
             duration := some 30, date := some 5 }] :=
  (empty_date_defaults_now wStore 7 "run" "30" 5).2 { uid := 7, username := "alice" }
    (by decide) 30 (by decide)

/-- C10: deleting all users leaves the Exercises collection unchanged and
deleting all exercises leaves the Users collection unchanged, whether or
not the store call fails. -/
theorem bulk_delete_frame (s : Store) (f : Bool) :
    (deleteAllUsers s f).2.exercises = s.exercises ∧
    (deleteAllExercises s f).2.users = s.users := by
  cases f <;> simp [deleteAllUsers, deleteAllExercises]

/-- C3 counterexample: the claim that malformed duration and unparseable
date input are never rejected with an error response fails at a concrete
input: with the user present, duration abc (parseInt gives NaN) and date
nonsense (the Date constructor gives an Invalid Date), the save throws a
cast error, the handler answers 500 and the store is unchanged. -/
theorem malformed_input_rejected_cex :
    findUserById wStore 7 = some { uid := 7, username := "alice" } ∧
    parseIntJS "abc" = none ∧ jsDateParse "nonsense" = none ∧
    (postExercise wStore 7 "x" "abc" (some "nonsense") 0).1.status = 500 ∧
    (postExercise wStore 7 "x" "abc" (some "nonsense") 0).2 = wStore := by
  decide

/-- C3 amended: the add exercise handler itself performs no validation of
the coerced duration and date, but the store save does: with the user
present, a duration that parseInt sends to NaN, or a supplied date string
the Date constructor cannot parse, makes the save throw a cast error, and
the handler answers a 500 server error and stores nothing. -/
theorem malformed_input_rejected_at_save (s : Store) (uid : Nat) (u : UserRec)
    (desc dur ds : String) (now : Int)
    (hu : findUserById s uid = some u) (hne : ds ≠ "")
    (hbad : parseIntJS dur = none ∨ jsDateParse ds = none) :
    postExercise s uid desc dur (some ds) now
      = (.serverError "Server error adding exercise", s) ∧
    (postExercise s uid desc dur (some ds) now).1.status = 500 ∧
    (postExercise s uid desc dur (some ds) now).2.exercises = s.exercises := by
  have hempty : ds.isEmpty = false := by
    rw [Bool.eq_false_iff]
    intro hh
    exact hne ((String.isEmpty_iff ds).mp hh)
  have ht : truthy (some ds) = true := by simp [truthy, hempty]
  rcases hbad with hdur | hdate
  · cases hd : jsDateParse ds <;> simp [postExercise, hu, ht, hdur, hd, ExResp.status]
  · cases hd : parseIntJS dur <;> simp [postExercise, hu, ht, hdate, hd, ExResp.status]

/-- C3 witness: even with a well-formed date, the NaN duration abc makes
the save fail and the handler answer 500 with nothing stored. -/
theorem malformed_input_rejected_at_save_w :
    postExercise wStore 7 "x" "abc" (some "2024-01-01") 0
      = (.serverError "Server error adding exercise", wStore) ∧
    (postExercise wStore 7 "x" "abc" (some "2024-01-01") 0).1.status = 500 ∧
    (postExercise wStore 7 "x" "abc" (some "2024-01-01") 0).2.exercises = wStore.exercises :=
  malformed_input_rejected_at_save wStore 7 { uid := 7, username := "alice" } "x" "abc"
    "2024-01-01" 0 (by decide) (by decide) (Or.inl (by decide))

/-- C7: every successful log response carries a count equal to the number
of elements of its log array. -/
theorem log_count_eq_length (s : Store) (uid : Nat) (fromQ toQ limitQ : Option String)
    (i : Nat) (un : String) (c : Nat) (l : List LogEntry)
    (h : getLogs s uid fromQ toQ limitQ = .ok i un c l) :
    c = l.length := by
  simp only [getLogs] at h
  repeat' split at h
  all_goals try simp_all
  all_goals obtain ⟨-, -, hc, hl⟩ := h
  all_goals subst hc
  all_goals subst hl
  all_goals simp

/-- C7 witness: a successful log response of the witness store, whose
count 0 equals the length of its empty log. -/
theorem log_count_eq_length_w : (0 : Nat) = ([] : List LogEntry).length :=
  log_count_eq_length wStore 7 none none none 7 "alice" 0 [] (by decide)

/-- Decomposition of the sorted entry list at position n: the first n
entries are at most n, together with the rest they are a permutation of
the original list, they are sorted, and each of them precedes every
dropped entry in the date order. -/
theorem take_drop_earliest (l : List ExerciseRec) (n : Nat) :
    ((l.insertionSort dateOrder).take n).length ≤ n ∧
    (((l.insertionSort dateOrder).take n) ++ ((l.insertionSort dateOrder).drop n)).Perm l ∧
    List.Sorted dateOrder ((l.insertionSort dateOrder).take n) ∧
    ∀ a ∈ (l.insertionSort dateOrder).take n,
      ∀ b ∈ (l.insertionSort dateOrder).drop n, dateOrder a b := by
  refine ⟨?_, ?_, ?_, ?_⟩
  · rw [List.length_take]
    exact min_le_left _ _
  · rw [List.take_append_drop]
    exact List.perm_insertionSort dateOrder l
  · exact List.Pairwise.sublist (List.take_sublist n _) (List.sorted_insertionSort dateOrder l)
  · have hp : List.Pairwise dateOrder (l.insertionSort dateOrder) :=
      List.sorted_insertionSort dateOrder l
    rw [← List.take_append_drop n (l.insertionSort dateOrder)] at hp
    exact (List.pairwise_append.mp hp).2.2

/-- C1 counterexample: the original claim fails at the numeric limit 0:
parseInt maps the string 0 to the number 0, the store treats a cursor
limit of 0 as no limit at all, and the handler returns both stored
entries of the user, which is more than 0 entries. -/
theorem limit_zero_not_capped :
    parseIntJS "0" = some 0 ∧
    (getLogs cexStore 1 none none (some "0")).logList.length = 2 ∧
    ¬ ((getLogs cexStore 1 none none (some "0")).logList.length ≤ 0) := by
  decide

/-- C1 amended: a supplied limit that parses to a positive integer n caps
the log at n entries, and these are the n chronologically earliest, under
the ascending date sort, of the entries matching the filter; a limit of 0
is instead passed to the store as no limit, the case on which the
original claim fails. -/
theorem limit_caps_log (s : Store) (uid : Nat) (u : UserRec)
    (fromQ toQ : Option String) (lo hi : Option Int) (ls : String) (n : Nat)
    (hu : findUserById s uid = some u)
    (hlo : queryBound fromQ = .ok lo) (hhi : queryBound toQ = .ok hi)
    (hls : truthy (some ls) = true)
    (hn : parseIntJS ls = some (n : Int)) (hpos : 0 < n) :
    ∃ pre rest : List ExerciseRec,
      getLogs s uid fromQ toQ (some ls)
        = .ok u.uid u.username (pre.map toLogEntry).length (pre.map toLogEntry) ∧
      pre.length ≤ n ∧
      (pre ++ rest).Perm
        (s.exercises.filter (logFilter uid (truthy fromQ || truthy toQ) lo hi)) ∧
      List.Sorted dateOrder pre ∧
      ∀ a ∈ pre, ∀ b ∈ rest, dateOrder a b := by
  obtain ⟨h1, h2, h3, h4⟩ :=
    take_drop_earliest (s.exercises.filter (logFilter uid (truthy fromQ || truthy toQ) lo hi)) n
  refine ⟨_, _, ?_, h1, h2, h3, h4⟩
  rw [getLogs_ok s uid u fromQ toQ (some ls) lo hi hu hlo hhi]
  simp [hls, hn, mongoLimit, Nat.cast_eq_zero, hpos.ne', Int.natAbs_ofNat]

/-- C1 witness: on the two-entry store a limit of 1 keeps exactly the
chronologically first entry. -/
theorem limit_caps_log_w :
    ∃ pre rest : List ExerciseRec,
      getLogs cexStore 1 none none (some "1")
        = .ok 1 "alice" (pre.map toLogEntry).length (pre.map toLogEntry) ∧
      pre.length ≤ 1 ∧
      (pre ++ rest).Perm
        (cexStore.exercises.filter (logFilter 1 (truthy none || truthy none) none none)) ∧
      List.Sorted dateOrder pre ∧
      ∀ a ∈ pre, ∀ b ∈ rest, dateOrder a b :=
  limit_caps_log cexStore 1 { uid := 1, username := "alice" } none none none none "1" 1
    (by decide) (by rfl) (by rfl) (by rfl) (by decide) (by decide)

/-- C6: with from or to supplied and parsing as dates, the log handler
returns exactly the entries of the user whose date lies in the inclusive
range: the response log renders a record list recs, and a stored exercise
belongs to recs exactly when it belongs to the user and its date
satisfies every supplied bound, boundary dates included. -/
theorem range_filter_exact (s : Store) (uid : Nat) (u : UserRec)
    (fromQ toQ : Option String) (lo hi : Option Int)
    (hu : findUserById s uid = some u)
    (hlo : queryBound fromQ = .ok lo) (hhi : queryBound toQ = .ok hi)
    (hsome : (truthy fromQ || truthy toQ) = true) :
    ∃ recs : List ExerciseRec,
      getLogs s uid fromQ toQ none
        = .ok u.uid u.username (recs.map toLogEntry).length (recs.map toLogEntry) ∧
      ∀ e : ExerciseRec, e ∈ recs ↔
        e ∈ s.exercises ∧ e.userId = uid ∧
          ∃ d : Int, e.date = some d ∧ (∀ l ∈ lo, l ≤ d) ∧ (∀ h ∈ hi, d ≤ h) := by
  refine ⟨(s.exercises.filter (logFilter uid true lo hi)).insertionSort dateOrder, ?_, ?_⟩
  · rw [getLogs_ok s uid u fromQ toQ none lo hi hu hlo hhi, hsome]
    simp [truthy, mongoLimit]
  · intro e
    rw [(List.perm_insertionSort dateOrder _).mem_iff, List.mem_filter, logFilter_true_iff]

/-- C6 witness: querying the two-entry store for the window from
2024-01-02 to 2024-01-03 keeps exactly the later entry. -/
theorem range_filter_exact_w :
    ∃ recs : List ExerciseRec,
      getLogs cexStore 1 (some "2024-01-02") (some "2024-01-03") none
        = .ok 1 "alice" (recs.map toLogEntry).length (recs.map toLogEntry) ∧
      ∀ e : ExerciseRec, e ∈ recs ↔
        e ∈ cexStore.exercises ∧ e.userId = 1 ∧
          ∃ d : Int, e.date = some d ∧
            (∀ l ∈ (some (20240102 : Int) : Option Int), l ≤ d) ∧
            (∀ h ∈ (some (20240103 : Int) : Option Int), d ≤ h) :=
  range_filter_exact cexStore 1 { uid := 1, username := "alice" } (some "2024-01-02")
    (some "2024-01-03") (some 20240102) (some 20240103) (by decide) (by rfl) (by rfl) (by rfl)
